import Mathlib

/-!
Verification of the Proty content-calendar core: the in-memory post store
(`handleSavePost`, `handleDeletePost` from `App.tsx`), the date bucketing
(`postsByDate` from `App.tsx`), the calendar grid builder (the `Calendar`
component), month navigation (`goToPreviousMonth` / `goToNextMonth`), the
modal save/comment handlers (`handleSave`, `handleAddComment` from
`PostModal.tsx`), and the caption-suggestion boundary
(`suggestCaption` from `services/geminiService.ts`).

Modelling conventions:
* A JavaScript `Date` instant is a calendar day (year, 0-indexed month, day
  of month, all integers, mirroring `getFullYear` / `getMonth` / `getDate`)
  together with a time-of-day component that `toDateString` ignores.
* `Date.prototype.getDay` and the month-overflow normalisation of the
  `Date(year, month, day)` constructor are modelled by proleptic Gregorian
  calendar arithmetic; the constructor's legacy two-digit-year remapping
  (`MakeFullYear`: year arguments 0-99 mean 1900+year) is modelled by
  `makeFullYear` and applied wherever the source calls the constructor.
* Clock reads (`new Date()`, `new Date().toISOString()`) are passed in as
  explicit parameters, since the source uses them as id / timestamp sources.
* String ids compare with `===`, modelled by `String` equality; the
  truthiness tests `if (postToSave.id)` and `if (!API_KEY)` treat both
  `undefined` and the empty string as falsy, and are modelled accordingly.
* `newComment.trim()` strips the full ECMAScript whitespace set (WhiteSpace
  and LineTerminator code points), modelled by `isJsWhitespace`.
-/

/-- `PostStatus` enum from `types.ts`. -/
inductive PostStatus where
  | draft
  | pendingReview
  | needsRevision
  | approved
deriving DecidableEq

/-- The two comment author roles from `types.ts`. -/
inductive Author where
  | designer
  | reviewer
deriving DecidableEq

/-- A calendar day: the (year, month, day-of-month) triple a JS `Date`
exposes through `getFullYear` / `getMonth` (0-indexed) / `getDate`. -/
structure CalDay where
  year : Int
  month : Int
  day : Int
deriving DecidableEq

/-- A JS `Date` instant: a calendar day plus a time-of-day component.
`toDateString`-based keys ignore `msOfDay`. -/
structure DateTime where
  year : Int
  month : Int
  day : Int
  msOfDay : Nat
deriving DecidableEq

/-- The calendar-day projection of an instant.  Models
`date.toDateString()`, which renders exactly the (year, month, day) triple
and is injective on calendar days, so the `CalDay` itself serves as the
map key. -/
def toDateKey (d : DateTime) : CalDay :=
  ⟨d.year, d.month, d.day⟩

/-- `Comment` from `types.ts`. -/
structure Comment where
  id : String
  author : Author
  text : String
  timestamp : DateTime
deriving DecidableEq

/-- `Post` from `types.ts`. -/
structure Post where
  id : String
  date : DateTime
  images : List String
  caption : String
  status : PostStatus
  comments : List Comment
deriving DecidableEq

/-- The argument of `handleSavePost` in `App.tsx`:
`Omit<Post, 'id'> & { id?: string }` — every `Post` field with the id
optional. -/
structure PostInput where
  id : Option String
  date : DateTime
  images : List String
  caption : String
  status : PostStatus
  comments : List Comment
deriving DecidableEq

/-- The post built from a `PostInput` and a chosen id.  In the update
branch of `handleSavePost` the spread `{ ...p, ...postToSave, id:
postToSave.id }` overwrites every field of `p` with the input's fields and
re-asserts the id; in the create branch `{ ...postToSave, id: newId }`
builds the same record. -/
def postFromInput (pid : String) (input : PostInput) : Post :=
  ⟨pid, input.date, input.images, input.caption, input.status, input.comments⟩

/-- `handleSavePost` from `App.tsx`.  `now` is the value of
`new Date().toISOString()` at the call.  The guard `if (postToSave.id)` is
JS truthiness: it takes the update branch only when the id is present AND
non-empty; an absent id (and also an empty-string id, which is falsy)
takes the create branch that appends `{ ...postToSave, id: now }`. -/
def handleSavePost (now : String) (input : PostInput) (posts : List Post) : List Post :=
  match input.id with
  | some pid =>
      if pid = "" then
        posts ++ [postFromInput now input]
      else
        posts.map (fun p => if p.id = pid then postFromInput pid input else p)
  | none => posts ++ [postFromInput now input]

/-- `handleDeletePost` from `App.tsx`:
`setPosts(prevPosts => prevPosts.filter(p => p.id !== postId))`. -/
def handleDeletePost (postId : String) (posts : List Post) : List Post :=
  posts.filter (fun p => decide (p.id ≠ postId))

/-- The insertion-ordered bucket map built by `postsByDate` in `App.tsx`;
a JS `Map<string, Post[]>` keyed by `toDateString` values, represented as
an association list in key-insertion order. -/
abbrev Buckets := List (CalDay × List Post)

/-- `map.get(dateKey)` (with the `|| []` default the `Calendar` component
applies): the bucket stored under `k`, or `[]` when absent. -/
def findBucket (m : Buckets) (k : CalDay) : List Post :=
  match m with
  | [] => []
  | (kb, ps) :: rest => if kb = k then ps else findBucket rest k

/-- The keys of the bucket map, in insertion order. -/
def bucketKeys (m : Buckets) : List CalDay :=
  m.map Prod.fst

/-- One iteration of the `posts.forEach` body in `postsByDate`:
`if (!map.has(dateKey)) map.set(dateKey, []); map.get(dateKey)?.push(post)`.
An existing key keeps its position and its list gains `p` at the end; a
new key is appended at the end of the map with the singleton list. -/
def insertPost (m : Buckets) (k : CalDay) (p : Post) : Buckets :=
  match m with
  | [] => [(k, [p])]
  | (kb, ps) :: rest =>
      if kb = k then (kb, ps ++ [p]) :: rest
      else (kb, ps) :: insertPost rest k p

/-- The `forEach` step of `postsByDate`, keyed by the post's
`date.toDateString()`. -/
def bucketStep (m : Buckets) (p : Post) : Buckets :=
  insertPost m (toDateKey p.date) p

/-- `postsByDate` from `App.tsx`: fold the `forEach` body over the post
list starting from the empty map. -/
def postsByDate (posts : List Post) : Buckets :=
  posts.foldl bucketStep []

/-- Gregorian leap-year test for years ≥ 1 (proleptic). -/
def isLeapN (y : Nat) : Bool :=
  decide (y % 4 = 0 ∧ y % 100 ≠ 0 ∨ y % 400 = 0)

/-- Days in the months before 1-indexed month `mn` of a common year. -/
def daysBeforeMonth (mn : Nat) (leap : Bool) : Nat :=
  [0, 31, 59, 90, 120, 151, 181, 212, 243, 273, 304, 334].getD (mn - 1) 0 +
    (if leap ∧ 3 ≤ mn then 1 else 0)

/-- Sunday-first weekday index (0 = Sunday .. 6 = Saturday) of the given
proleptic-Gregorian date, for years ≥ 1 and 1-indexed months.  Day number
1 (January 1 of year 1) is a Monday. -/
def weekdayOfDate (y mn d : Nat) : Nat :=
  let leaps := (y - 1) / 4 - (y - 1) / 100 + (y - 1) / 400
  (365 * (y - 1) + leaps + daysBeforeMonth mn (isLeapN y) + d) % 7

/-- Leap-year test for arbitrary integer years, via the 400-year Gregorian
cycle (`y` and `y.emod 400 + 400` agree on leapness). -/
def isLeapZ (y : Int) : Bool :=
  isLeapN ((y % 400) + 400).toNat

/-- Weekday of a date with an arbitrary integer year: the Gregorian
calendar repeats every 400 years (146097 days, a multiple of 7), so the
year is shifted into [400, 799] first.  Models `Date.prototype.getDay`. -/
def weekdayOfDateZ (y : Int) (mn d : Nat) : Nat :=
  weekdayOfDate ((y % 400) + 400).toNat mn d

/-- `new Date(y, m + 1, 0).getDate()` for a 0-indexed month `m` in 0..11:
the number of days in month `m` of year `y`. -/
def daysInGregMonth (y : Int) (m : Nat) : Nat :=
  if m = 1 then (if isLeapZ y then 29 else 28)
  else if m = 3 ∨ m = 5 ∨ m = 8 ∨ m = 10 then 30
  else 31

/-- One cell of the rendered month grid (derived `CalendarCell`). -/
structure CalendarCell where
  date : CalDay
  isToday : Bool
  posts : List Post
deriving DecidableEq

/-- The output of the `Calendar` component's layout logic: the number of
leading blank placeholder cells and the ordered day cells. -/
structure CalendarGrid where
  leadingBlanks : Nat
  cells : List CalendarCell
deriving DecidableEq

/-- The ECMAScript `MakeFullYear` step of the `Date(year, month, day)`
constructor: a year argument in 0-99 is remapped to 1900+year; any other
year is taken as is. -/
def makeFullYear (y : Int) : Int :=
  if 0 ≤ y ∧ y ≤ 99 then 1900 + y else y

/-- The grid-building logic of the `Calendar` component
(`components/Calendar.tsx`): `new Date(year, month, 1)` /
`new Date(year, month + 1, 0)` first put the raw year argument through
`MakeFullYear`, so the rendered month lives in year `makeFullYear y`;
the component then enumerates that month's days from the 1st to the last
in order, sets `startingDayOfWeek = firstDayOfMonth.getDay()` as the
leading blank count, marks `isToday` by comparing the (day, month, year)
triple with `today`, and attaches `postsByDate.get(dateKey) || []` to
each cell. -/
def buildCalendarGrid (y : Int) (m : Nat) (today : CalDay) (posts : List Post) :
    CalendarGrid :=
  let yr := makeFullYear y
  { leadingBlanks := weekdayOfDateZ yr (m + 1) 1
    cells :=
      (List.range (daysInGregMonth yr m)).map (fun (i : Nat) =>
        let d : CalDay := ⟨yr, (m : Int), (i : Int) + 1⟩
        { date := d
          isToday := decide (d = today)
          posts := findBucket (postsByDate posts) d }) }

/-- `new Date(y, m, 1)` for an arbitrary (possibly out-of-range) month
argument: the constructor first applies `MakeFullYear` to the year
argument, then folds the month overflow into the year,
`year := makeFullYear y + ⌊m / 12⌋`, `month := m mod 12 ∈ [0, 11]`,
day 1. -/
def mkDateMonthNorm (y m : Int) : CalDay :=
  ⟨makeFullYear y + m / 12, m % 12, 1⟩

/-- `goToPreviousMonth` from `App.tsx`:
`new Date(currentDate.getFullYear(), currentDate.getMonth() - 1, 1)`. -/
def goToPreviousMonth (cur : CalDay) : CalDay :=
  mkDateMonthNorm cur.year (cur.month - 1)

/-- `goToNextMonth` from `App.tsx`:
`new Date(currentDate.getFullYear(), currentDate.getMonth() + 1, 1)`. -/
def goToNextMonth (cur : CalDay) : CalDay :=
  mkDateMonthNorm cur.year (cur.month + 1)

/-- The modal's local edit buffer (`PostModal.tsx` state: `images`,
`caption`, `status`, `comments`). -/
structure EditBuffer where
  images : List String
  caption : String
  status : PostStatus
  comments : List Comment
deriving DecidableEq

/-- Observable outcome of the modal's `handleSave`.  The source either
calls `onSave` with a payload (`requested`) or hits `if (!postDate)
return;` (`silentReturn`).  The `failed` constructor is never produced by
the source; it is present only so the spec's demanded fail-fast behaviour
is expressible in the same codomain. -/
inductive SaveOutcome where
  | requested (input : PostInput)
  | silentReturn
  | failed (msg : String)
deriving DecidableEq

/-- Whether a `SaveOutcome` is a distinct error signal. -/
def SaveOutcome.isError : SaveOutcome → Bool
  | .failed _ => true
  | _ => false

/-- `handleSave` from `PostModal.tsx`:
`const postDate = post?.date || date; if (!postDate) return;
onSave({ id: post?.id, date: postDate, images, caption, status, comments })`.
A `Date` object is always truthy, so `post?.date || date` resolves to the
post's date when a post is open and to the pre-selected day otherwise. -/
def handleSave (post : Option Post) (date : Option DateTime) (buf : EditBuffer) :
    SaveOutcome :=
  match (match post with | some p => some p.date | none => date) with
  | none => .silentReturn
  | some d =>
      .requested ⟨post.map Post.id, d, buf.images, buf.caption, buf.status, buf.comments⟩

/-- The ECMAScript whitespace set stripped by `String.prototype.trim`:
TAB, LF, VT, FF, CR, the Zs category spaces (SPACE, NBSP, U+1680,
U+2000-U+200A, U+202F, U+205F, U+3000), the line/paragraph separators
U+2028/U+2029, and the BOM U+FEFF. -/
def isJsWhitespace (c : Char) : Bool :=
  let n := c.toNat
  decide (n = 0x9 ∨ n = 0xA ∨ n = 0xB ∨ n = 0xC ∨ n = 0xD ∨ n = 0x20 ∨
    n = 0xA0 ∨ n = 0x1680 ∨ (0x2000 ≤ n ∧ n ≤ 0x200A) ∨ n = 0x2028 ∨
    n = 0x2029 ∨ n = 0x202F ∨ n = 0x205F ∨ n = 0xFEFF ∨ n = 0x3000)

/-- The blank test of `handleAddComment` in `PostModal.tsx`:
`newComment.trim() === ''`, i.e. every character is in the ECMAScript
trim whitespace set. -/
def isBlankComment (s : String) : Bool :=
  s.toList.all isJsWhitespace

/-- `handleAddComment` from `PostModal.tsx`.  `nowIso` and `nowTs` are the
`new Date().toISOString()` / `new Date()` clock reads used for the
comment id and timestamp.  Returns the new `(comments, newComment)` state
pair: a blank draft is rejected unchanged; otherwise the comment (with
the untrimmed text) is appended and the draft box is cleared. -/
def handleAddComment (nowIso : String) (nowTs : DateTime) (author : Author)
    (newComment : String) (comments : List Comment) : List Comment × String :=
  if isBlankComment newComment then (comments, newComment)
  else (comments ++ [⟨nowIso, author, newComment, nowTs⟩], "")

/-- The `inlineData` record built by `base64ToInlineData` in
`services/geminiService.ts`; `data` is `undefined` (`none`) when the
input string has no comma. -/
structure InlineData where
  mimeType : String
  data : Option String
deriving DecidableEq

/-- The mime-type extraction `metadata.match(/:(.*?);/)?.[1] ||
'image/jpeg'`: the (lazily matched) text between the first `:` that is
followed by a `;` and that `;`, defaulting to `image/jpeg` when the
pattern does not match. -/
def extractMime (metadata : String) : String :=
  match metadata.splitOn ":" with
  | [] => "image/jpeg"
  | _ :: rest =>
      if rest = [] then "image/jpeg"
      else
        match (String.intercalate ":" rest).splitOn ";" with
        | [] => "image/jpeg"
        | seg :: tailParts => if tailParts = [] then "image/jpeg" else seg

/-- `base64ToInlineData` from `services/geminiService.ts`:
`const [metadata, data] = base64String.split(',')` followed by the
mime-type extraction. -/
def base64ToInlineData (s : String) : InlineData :=
  let parts := s.splitOn ","
  ⟨extractMime (parts.headD ""), parts.drop 1 |>.head?⟩

/-- Outcome of the external `ai.models.generateContent` call: the response
text, or a thrown error. -/
inductive GenOutcome where
  | ok (text : String)
  | error (msg : String)
deriving DecidableEq

/-- The fallback returned when `API_KEY` is unset. -/
def noKeyMsg : String :=
  "API Key not configured. Please set the API_KEY environment variable."

/-- The `catch` fallback of `suggestCaption`.  The original text contains
an apostrophe (couldn + apostrophe + t), assembled here character-wise. -/
def genFailMsg : String :=
  "Sorry, I couldn" ++ String.singleton (Char.ofNat 39) ++
    "t generate a caption right now. Please try again later."

/-- JS truthiness of the `process.env.API_KEY` read, as tested by
`if (!API_KEY)`: falsy both when the variable is unset (`undefined`) and
when it is set to the empty string. -/
def keyTruthy : Option String → Bool
  | none => false
  | some s => decide (s ≠ "")

/-- `suggestCaption` from `services/geminiService.ts`.  `apiKey` is the
`process.env.API_KEY` read; `gen` is the external generative-model call,
whose outcome (response text or thrown error) is the only effect of the
`try` block.  The guard `if (!API_KEY)` is JS truthiness (`keyTruthy`):
an unset or empty key returns the configuration fallback without calling
the model; otherwise the catch fallback is returned when the call throws
and the response text when it succeeds — no fault ever propagates (the
codomain is a plain `String`). -/
def suggestCaption (apiKey : Option String) (gen : List InlineData → GenOutcome)
    (images : List String) : String :=
  if keyTruthy apiKey = false then noKeyMsg
  else
    match gen (images.map base64ToInlineData) with
    | .ok t => t
    | .error _ => genFailMsg

/-- A sample instant (used by concrete witnesses below). -/
def exDT : DateTime := ⟨2024, 2, 10, 43200000⟩

/-- A stored post whose id happens to equal a later `toISOString` clock
read. -/
def exPostIso : Post :=
  ⟨"2024-03-10T12:00:00.000Z", exDT, [], "old", .approved, []⟩

/-- A create-mode input (no id). -/
def exInputNoId : PostInput := ⟨none, exDT, [], "hello", .draft, []⟩

/-- An input carrying the empty-string id (present but falsy in JS). -/
def exInputEmptyId : PostInput := ⟨some "", exDT, [], "hello", .draft, []⟩

/-- A stored post with the empty-string id. -/
def exPostEmptyId : Post := ⟨"", exDT, [], "old", .draft, []⟩

/-- Concrete posts for the bucketing witness: first and third share a
calendar day. -/
def exPostA : Post := ⟨"a", ⟨2024, 2, 10, 100⟩, [], "A", .draft, []⟩

def exPostB : Post := ⟨"b", ⟨2024, 2, 11, 200⟩, [], "B", .draft, []⟩

def exPostC : Post := ⟨"c", ⟨2024, 2, 10, 300⟩, [], "C", .approved, []⟩

def exPosts4 : List Post := [exPostA, exPostB, exPostC]

/-- A concrete edit buffer. -/
def exBuf : EditBuffer := ⟨["img1"], "cap", .pendingReview, []⟩

theorem bucketKeys_nil : bucketKeys [] = [] := rfl

theorem bucketKeys_cons (k0 : CalDay) (ps : List Post) (rest : Buckets) :
    bucketKeys ((k0, ps) :: rest) = k0 :: bucketKeys rest := rfl

theorem findBucket_insertPost (m : Buckets) (k kx : CalDay) (p : Post) :
    findBucket (insertPost m kx p) k =
      findBucket m k ++ (if kx = k then [p] else []) := by
  induction m with
  | nil =>
      by_cases h : kx = k <;> simp [insertPost, findBucket, h]
  | cons kb rest ih =>
      obtain ⟨k0, ps⟩ := kb
      by_cases h0 : k0 = kx
      · subst h0
        by_cases hk : k0 = k
        · subst hk
          simp [insertPost, findBucket]
        · simp [insertPost, findBucket, hk]
      · by_cases hk : k0 = k
        · subst hk
          have hxk : ¬ kx = k0 := fun h => h0 h.symm
          simp [insertPost, findBucket, h0, hxk]
        · simp [insertPost, findBucket, h0, hk, ih]

theorem findBucket_foldl (ps : List Post) :
    ∀ (m : Buckets) (k : CalDay),
      findBucket (ps.foldl bucketStep m) k =
        findBucket m k ++ ps.filter (fun p => decide (toDateKey p.date = k)) := by
  induction ps with
  | nil => intro m k; simp
  | cons p ps ih =>
      intro m k
      simp only [List.foldl_cons, List.filter_cons]
      rw [ih, bucketStep, findBucket_insertPost]
      by_cases h : toDateKey p.date = k <;> simp [h]

theorem bucketKeys_insertPost (m : Buckets) (k : CalDay) (p : Post) :
    bucketKeys (insertPost m k p) =
      if k ∈ bucketKeys m then bucketKeys m else bucketKeys m ++ [k] := by
  induction m with
  | nil => simp [insertPost, bucketKeys]
  | cons kb rest ih =>
      obtain ⟨k0, ps⟩ := kb
      by_cases h : k0 = k
      · simp [insertPost, bucketKeys_cons, h]
      · have hne : ¬ k = k0 := fun hh => h hh.symm
        by_cases hm : k ∈ bucketKeys rest <;>
          simp [insertPost, bucketKeys_cons, h, hne, hm, ih]

theorem nodup_bucketKeys_insertPost (m : Buckets) (k : CalDay) (p : Post)
    (h : (bucketKeys m).Nodup) : (bucketKeys (insertPost m k p)).Nodup := by
  rw [bucketKeys_insertPost]
  by_cases hm : k ∈ bucketKeys m
  · simpa [hm] using h
  · simp [hm, List.nodup_append, h, List.disjoint_singleton]

theorem nodup_bucketKeys_foldl (ps : List Post) :
    ∀ m : Buckets, (bucketKeys m).Nodup →
      (bucketKeys (ps.foldl bucketStep m)).Nodup := by
  induction ps with
  | nil => intro m h; simpa
  | cons p ps ih =>
      intro m h
      simp only [List.foldl_cons]
      exact ih _ (nodup_bucketKeys_insertPost _ _ _ h)

theorem mem_bucketKeys_insertPost (m : Buckets) (k kx : CalDay) (p : Post)
    (h : k ∈ bucketKeys m ∨ k = kx) : k ∈ bucketKeys (insertPost m kx p) := by
  rw [bucketKeys_insertPost]
  by_cases hm : kx ∈ bucketKeys m
  · rcases h with h | h
    · rw [if_pos hm]; exact h
    · subst h; rw [if_pos hm]; exact hm
  · rcases h with h | h
    · simp [hm, List.mem_append, h]
    · subst h; simp [hm, List.mem_append]

theorem mem_bucketKeys_foldl (ps : List Post) :
    ∀ (m : Buckets) (k : CalDay), k ∈ bucketKeys m →
      k ∈ bucketKeys (ps.foldl bucketStep m) := by
  induction ps with
  | nil => intro m k h; simpa
  | cons p ps ih =>
      intro m k h
      simp only [List.foldl_cons]
      exact ih _ _ (mem_bucketKeys_insertPost _ _ _ _ (Or.inl h))

theorem key_present_foldl (ps : List Post) :
    ∀ (m : Buckets) (p : Post), p ∈ ps →
      toDateKey p.date ∈ bucketKeys (ps.foldl bucketStep m) := by
  induction ps with
  | nil => intro m p h; cases h
  | cons q ps ih =>
      intro m p h
      simp only [List.foldl_cons]
      rcases List.mem_cons.mp h with h | h
      · subst h
        exact mem_bucketKeys_foldl ps _ _
          (mem_bucketKeys_insertPost _ _ _ _ (Or.inr rfl))
      · exact ih _ _ h

theorem eq_findBucket_of_mem (m : Buckets) (k : CalDay) (b : List Post)
    (hnd : (bucketKeys m).Nodup) (hmem : (k, b) ∈ m) : b = findBucket m k := by
  induction m with
  | nil => cases hmem
  | cons kb rest ih =>
      obtain ⟨k0, ps⟩ := kb
      rw [bucketKeys_cons, List.nodup_cons] at hnd
      rcases List.mem_cons.mp hmem with heq | htail
      · injection heq with hk hb
        subst hk; subst hb
        simp [findBucket]
      · have hkmem : k ∈ bucketKeys rest :=
          List.mem_map_of_mem Prod.fst htail
        have hne : ¬ k0 = k := fun h => hnd.1 (h ▸ hkmem)
        simp only [findBucket, hne, if_false]
        exact ih hnd.2 htail

/-- C4: `postsByDate` is a partition of the post list: its keys are
pairwise distinct; every bucket `(k, b)` holds exactly the posts whose
date truncates to the calendar day `k`, in input order (a `filter` of the
input list); and every post's own day key is present, so each post lands
in exactly the bucket of its truncated date and in no other. -/
theorem postsByDate_partition (posts : List Post) :
    (bucketKeys (postsByDate posts)).Nodup ∧
    (∀ k b, (k, b) ∈ postsByDate posts →
      b = posts.filter (fun p => decide (toDateKey p.date = k))) ∧
    ∀ p ∈ posts, toDateKey p.date ∈ bucketKeys (postsByDate posts) := by
  have hnd : (bucketKeys (postsByDate posts)).Nodup :=
    nodup_bucketKeys_foldl posts [] (by simp [bucketKeys])
  refine ⟨hnd, ?_, ?_⟩
  · intro k b hmem
    have hb := eq_findBucket_of_mem _ k b hnd hmem
    have hf := findBucket_foldl posts [] k
    simp only [findBucket] at hf
    simpa [postsByDate, hf] using hb
  · intro p hp
    exact key_present_foldl posts [] p hp

/-- Witness for C4 at a concrete three-post list whose first and third
posts share a calendar day. -/
theorem postsByDate_partition_witness :
    [exPostA, exPostC] =
      exPosts4.filter (fun p => decide (toDateKey p.date = ⟨2024, 2, 10⟩)) :=
  (postsByDate_partition exPosts4).2.1 ⟨2024, 2, 10⟩ [exPostA, exPostC] (by decide)

/-- C1 counterexample: the generated id is `new Date().toISOString()`,
with no uniqueness check.  With a store already holding a post whose id
equals the clock string, a create-save (id absent) appends exactly one
post — but the new post's id equals the id of a post already in the
store, refuting the claimed distinctness. -/
theorem handleSavePost_create_id_collision :
    exInputNoId.id = none ∧
    (handleSavePost "2024-03-10T12:00:00.000Z" exInputNoId [exPostIso]).length =
      [exPostIso].length + 1 ∧
    (handleSavePost "2024-03-10T12:00:00.000Z" exInputNoId [exPostIso]).getLast?.map
        Post.id = some exPostIso.id := by
  decide

/-- C1 (amended): a create-save (id absent) appends exactly one new post,
built from the input with the generated timestamp id, leaving the
previous entries unchanged as a prefix; and the new post's id is distinct
from every stored id PROVIDED the generated timestamp string does not
already occur as an id in the store. -/
theorem handleSavePost_create_spec (now : String) (input : PostInput)
    (posts : List Post) (hid : input.id = none)
    (hfresh : ∀ p ∈ posts, p.id ≠ now) :
    handleSavePost now input posts = posts ++ [postFromInput now input] ∧
    (handleSavePost now input posts).length = posts.length + 1 ∧
    ∀ p ∈ posts, (postFromInput now input).id ≠ p.id := by
  refine ⟨by simp [handleSavePost, hid], by simp [handleSavePost, hid], ?_⟩
  intro p hp h
  exact hfresh p hp h.symm

/-- Witness for C1 (amended) at a concrete fresh clock string. -/
theorem handleSavePost_create_spec_witness :
    handleSavePost "2099-01-01T00:00:00.000Z" exInputNoId [exPostIso] =
      [exPostIso] ++ [postFromInput "2099-01-01T00:00:00.000Z" exInputNoId] :=
  (handleSavePost_create_spec "2099-01-01T00:00:00.000Z" exInputNoId [exPostIso]
    rfl (by decide)).1

/-- C2 counterexample: `if (postToSave.id)` is JS truthiness, so saving
with the id of a stored post whose id is the empty string takes the
CREATE branch — the list grows instead of being updated in place,
refuting the claim for that store state. -/
theorem handleSavePost_update_emptyId_cex :
    exPostEmptyId ∈ [exPostEmptyId] ∧
    exInputEmptyId.id = some exPostEmptyId.id ∧
    (handleSavePost "N" exInputEmptyId [exPostEmptyId]).length ≠
      [exPostEmptyId].length := by
  decide

/-- C2 (amended): for a stored post `P` with a NON-EMPTY id, saving an
input carrying `P.id` keeps the list length, replaces every entry whose
id is `P.id` by the input's fields with the id preserved, and leaves
every other entry unchanged (elementwise, in place). -/
theorem handleSavePost_update_spec (now : String) (input : PostInput)
    (posts : List Post) (P : Post) (_hP : P ∈ posts)
    (hid : input.id = some P.id) (hne : P.id ≠ "") :
    (handleSavePost now input posts).length = posts.length ∧
    ∀ i : Nat,
      (handleSavePost now input posts)[i]? =
        (posts[i]?).map
          (fun p => if p.id = P.id then postFromInput P.id input else p) := by
  constructor
  · simp [handleSavePost, hid, hne]
  · intro i
    simp [handleSavePost, hid, hne, List.getElem?_map]

/-- Witness for C2 (amended): updating the sample post in a two-post
store rewrites exactly its entry. -/
theorem handleSavePost_update_spec_witness :
    (handleSavePost "N" ⟨some exPostIso.id, exDT, [], "new", .draft, []⟩
        [exPostIso, exPostA])[0]? =
      some (postFromInput exPostIso.id ⟨some exPostIso.id, exDT, [], "new", .draft, []⟩) := by
  have h := (handleSavePost_update_spec "N"
    ⟨some exPostIso.id, exDT, [], "new", .draft, []⟩ [exPostIso, exPostA]
    exPostIso (by decide) rfl (by decide)).2 0
  rw [h]
  decide

/-- C10 counterexample: an input whose id is present but is the empty
string (falsy in JS) matches no post of the empty store, yet the save
takes the create branch and appends — the store is not left unchanged. -/
theorem handleSavePost_unmatchedId_cex :
    exInputEmptyId.id.isSome = true ∧
    (handleSavePost "N" exInputEmptyId []) ≠ ([] : List Post) := by
  decide

/-- C10 (amended): if the input's id is present, NON-EMPTY, and matches
no stored post's id, the save leaves the store entirely unchanged. -/
theorem handleSavePost_unmatchedId_spec (now : String) (input : PostInput)
    (posts : List Post) (pid : String) (hid : input.id = some pid)
    (hne : pid ≠ "") (hmiss : ∀ p ∈ posts, p.id ≠ pid) :
    handleSavePost now input posts = posts := by
  simp only [handleSavePost, hid, if_neg hne]
  have : ∀ l : List Post, (∀ p ∈ l, p.id ≠ pid) →
      (l.map fun p => if p.id = pid then postFromInput pid input else p) = l := by
    intro l
    induction l with
    | nil => intro; rfl
    | cons q l ihl =>
        intro hl
        simp only [List.map_cons, if_neg (hl q (List.mem_cons_self q l))]
        rw [ihl fun p hp => hl p (List.mem_cons_of_mem q hp)]
  exact this posts hmiss

/-- Witness for C10 (amended): saving with an unmatched non-empty id
leaves the sample store unchanged. -/
theorem handleSavePost_unmatchedId_spec_witness :
    handleSavePost "N" ⟨some "zz", exDT, [], "x", .draft, []⟩ [exPostA, exPostB] =
      [exPostA, exPostB] :=
  handleSavePost_unmatchedId_spec "N" ⟨some "zz", exDT, [], "x", .draft, []⟩
    [exPostA, exPostB] "zz" rfl (by decide) (by decide)

/-- C5: after `delete(id)` the store contains no post with that id, and
if no stored post had that id the delete leaves the store unchanged. -/
theorem handleDeletePost_spec (postId : String) (posts : List Post) :
    (∀ p ∈ handleDeletePost postId posts, p.id ≠ postId) ∧
    ((∀ p ∈ posts, p.id ≠ postId) → handleDeletePost postId posts = posts) := by
  constructor
  · intro p hp
    have := (List.mem_filter.mp hp).2
    simpa using this
  · intro h
    apply List.filter_eq_self.mpr
    intro p hp
    simpa using h p hp

/-- Witness for C5: deleting an id absent from the sample store leaves
it unchanged. -/
theorem handleDeletePost_spec_witness :
    handleDeletePost "zz" [exPostA, exPostB] = [exPostA, exPostB] :=
  (handleDeletePost_spec "zz" [exPostA, exPostB]).2 (by decide)

/-- C3 counterexample: the `Date` constructor remaps year arguments
0-99 to 1900+year, so for year 0 the component renders February 1900
(28 days, and every cell dated in year 1900) even though February of
year 0 has 29 calendar days — the claimed cell count fails at
(year 0, month 1). -/
theorem buildCalendarGrid_remap_cex :
    (buildCalendarGrid 0 1 ⟨2024, 2, 10⟩ []).cells.length = 28 ∧
    daysInGregMonth 0 1 = 29 ∧
    (buildCalendarGrid 0 1 ⟨2024, 2, 10⟩ []).cells[0]?.map
        (fun c => c.date.year) = some 1900 := by
  decide

/-- C3 (amended): for every year OUTSIDE the constructor's two-digit
remap range 0-99 and every valid (0-indexed) month the grid has one cell
per calendar day of the month — the i-th cell carrying day i+1 — so the
cell count equals the month's day count; the leading blank count is the
Sunday-first weekday index (0–6) of day 1; and in the concrete scenario
(year 2024, month 2 = March, today = 2024-03-10) the grid has 31 cells,
5 leading blanks (March 1 2024 is a Friday), and the cell of March 10
has `isToday = true`.  (For years 0-99 the grid rendered is that of
1900+year.) -/
theorem buildCalendarGrid_spec (y : Int) (m : Nat) (today : CalDay)
    (posts : List Post) (_hm : m ≤ 11) (hyr : ¬(0 ≤ y ∧ y ≤ 99)) :
    ((buildCalendarGrid y m today posts).cells.length = daysInGregMonth y m ∧
     (buildCalendarGrid y m today posts).cells.map CalendarCell.date =
       (List.range (daysInGregMonth y m)).map (fun i => ⟨y, (m : Int), (i : Int) + 1⟩) ∧
     (buildCalendarGrid y m today posts).leadingBlanks = weekdayOfDateZ y (m + 1) 1 ∧
     (buildCalendarGrid y m today posts).leadingBlanks ≤ 6) ∧
    ((buildCalendarGrid 2024 2 ⟨2024, 2, 10⟩ []).cells.length = 31 ∧
     (buildCalendarGrid 2024 2 ⟨2024, 2, 10⟩ []).leadingBlanks = 5 ∧
     (buildCalendarGrid 2024 2 ⟨2024, 2, 10⟩ []).cells[9]?.map
         (fun c => (c.date, c.isToday)) = some (⟨2024, 2, 10⟩, true)) := by
  have hmf : makeFullYear y = y := by
    unfold makeFullYear
    rw [if_neg hyr]
  refine ⟨⟨?_, ?_, ?_, ?_⟩, by decide, by decide, by decide⟩
  · simp only [buildCalendarGrid, hmf, List.length_map, List.length_range]
  · simp only [buildCalendarGrid, hmf]
    rw [List.map_map]
    rfl
  · simp only [buildCalendarGrid, hmf]
  · have hmod : weekdayOfDateZ y (m + 1) 1 % 7 = weekdayOfDateZ y (m + 1) 1 := by
      unfold weekdayOfDateZ weekdayOfDate
      simp [Nat.mod_mod_of_dvd]
    have hlt : weekdayOfDateZ y (m + 1) 1 < 7 := by
      rw [← hmod]
      exact Nat.mod_lt _ (by norm_num)
    simpa [buildCalendarGrid, hmf] using Nat.lt_succ_iff.mp hlt

/-- Witness for C3 at the scenario inputs. -/
theorem buildCalendarGrid_spec_witness :
    (buildCalendarGrid 2024 2 ⟨2024, 2, 10⟩ []).cells.length =
      daysInGregMonth 2024 2 :=
  (buildCalendarGrid_spec 2024 2 ⟨2024, 2, 10⟩ [] (by decide) (by decide)).1.1

/-- C8 counterexample: the `Date` constructor remaps year arguments
0-99 to 1900+year, so from January of year 99 (a state reachable by
navigating back from January of year 100) the previous-month move lands
in December 1998, and from December of year 99 the next-month move lands
in January 2000 — not the adjacent months of years 98 / 100 the claim
demands. -/
theorem month_rollover_remap_cex :
    goToPreviousMonth ⟨99, 0, 1⟩ = ⟨1998, 11, 1⟩ ∧
    goToNextMonth ⟨99, 11, 1⟩ = ⟨2000, 0, 1⟩ ∧
    (goToPreviousMonth ⟨99, 0, 1⟩).year ≠ 99 - 1 ∧
    (goToNextMonth ⟨99, 11, 1⟩).year ≠ 99 + 1 := by
  decide

/-- C8 (amended): with a valid current month (0–11) and a current year
OUTSIDE the constructor's two-digit remap range 0-99, moving to the
previous month from January lands on December 1 of the previous year,
moving to the next month from December lands on January 1 of the next
year, and in every other case the move lands on day 1 of the adjacent
month of the same year.  (For current years 0-99 the moves land in the
months adjacent to 1900+year.) -/
theorem month_rollover_spec (cur : CalDay) (h0 : 0 ≤ cur.month)
    (h1 : cur.month ≤ 11) (hyr : ¬(0 ≤ cur.year ∧ cur.year ≤ 99)) :
    goToPreviousMonth cur =
      (if cur.month = 0 then ⟨cur.year - 1, 11, 1⟩
       else ⟨cur.year, cur.month - 1, 1⟩) ∧
    goToNextMonth cur =
      (if cur.month = 11 then ⟨cur.year + 1, 0, 1⟩
       else ⟨cur.year, cur.month + 1, 1⟩) := by
  obtain ⟨y, m, d⟩ := cur
  simp only at h0 h1 hyr
  have hmf : makeFullYear y = y := by
    unfold makeFullYear
    rw [if_neg hyr]
  constructor
  · by_cases hm : m = 0
    · subst hm
      simp [goToPreviousMonth, mkDateMonthNorm, hmf, CalDay.mk.injEq]
      try omega
    · simp [goToPreviousMonth, mkDateMonthNorm, hmf, CalDay.mk.injEq, hm]
      try omega
  · by_cases hm : m = 11
    · subst hm
      simp [goToNextMonth, mkDateMonthNorm, hmf, CalDay.mk.injEq]
      try omega
    · simp [goToNextMonth, mkDateMonthNorm, hmf, CalDay.mk.injEq, hm]
      try omega

/-- Witness for C8 at January 2024 (previous-month rollover to December
2023). -/
theorem month_rollover_spec_witness :
    goToPreviousMonth ⟨2024, 0, 1⟩ = ⟨2023, 11, 1⟩ := by
  have h := (month_rollover_spec ⟨2024, 0, 1⟩ (by decide) (by decide) (by decide)).1
  simpa using h

/-- C6 counterexample: with neither an edited post nor a pre-selected
day, the modal's `handleSave` hits `if (!postDate) return;` — it silently
returns without calling `onSave` and without raising any distinct error,
refuting the claim that it fails fast with an error. -/
theorem handleSave_missingDate_cex :
    handleSave none none exBuf = SaveOutcome.silentReturn ∧
    (handleSave none none exBuf).isError = false := by
  decide

/-- C6 (amended): when no date is resolvable (post and date both null)
the save performs no save and silently returns — it neither defaults a
date nor calls `onSave`; and `handleSave` never produces a distinct
error outcome on any input (the source has no error channel). -/
theorem handleSave_missingDate_spec (buf : EditBuffer) :
    handleSave none none buf = SaveOutcome.silentReturn ∧
    ∀ (post : Option Post) (date : Option DateTime),
      (handleSave post date buf).isError = false := by
  refine ⟨rfl, ?_⟩
  intro post date
  cases post with
  | none =>
      cases date <;> rfl
  | some p => rfl

/-- Witness for C6 (amended) at the concrete buffer. -/
theorem handleSave_missingDate_spec_witness :
    handleSave none none exBuf = SaveOutcome.silentReturn :=
  (handleSave_missingDate_spec exBuf).1

/-- C9: a blank comment draft — empty or consisting only of ECMAScript
trim whitespace, so that `newComment.trim() === ''` — is rejected: the
comment list and the draft text are unchanged and no comment is created;
a non-blank draft appends exactly one comment (with the draft text) at
the end, leaving all previously appended comments unmutated and in
order, and clears the draft. -/
theorem handleAddComment_spec (nowIso : String) (nowTs : DateTime)
    (a : Author) (txt : String) (comments : List Comment) :
    (isBlankComment txt = true →
      handleAddComment nowIso nowTs a txt comments = (comments, txt)) ∧
    (isBlankComment txt = false →
      handleAddComment nowIso nowTs a txt comments =
        (comments ++ [⟨nowIso, a, txt, nowTs⟩], "") ∧
      (handleAddComment nowIso nowTs a txt comments).1.take comments.length =
        comments ∧
      (handleAddComment nowIso nowTs a txt comments).1.length =
        comments.length + 1) := by
  constructor
  · intro h
    simp [handleAddComment, h]
  · intro h
    refine ⟨by simp [handleAddComment, h], ?_, by simp [handleAddComment, h]⟩
    simp [handleAddComment, h, List.take_left]

/-- Witness for C9: a whitespace-only draft is rejected against the
empty comment list. -/
theorem handleAddComment_spec_witness :
    handleAddComment "c9" exDT Author.designer "   " [] = ([], "   ") :=
  (handleAddComment_spec "c9" exDT Author.designer "   " []).1 (by decide)

/-- C7: `suggestCaption` never lets a fault past its boundary: its
codomain is a plain string; with a missing credential — the `API_KEY`
variable unset OR set to the empty string, both falsy under
`if (!API_KEY)` — it returns the configuration fallback message without
calling the model; with a truthy key it returns the human-readable catch
fallback when the generative-model call throws, and the model's response
text otherwise. -/
theorem suggestCaption_never_raises (gen : List InlineData → GenOutcome)
    (images : List String) (k msg txt : String) :
    suggestCaption none gen images = noKeyMsg ∧
    suggestCaption (some "") gen images = noKeyMsg ∧
    (k ≠ "" → gen (images.map base64ToInlineData) = .error msg →
      suggestCaption (some k) gen images = genFailMsg) ∧
    (k ≠ "" → gen (images.map base64ToInlineData) = .ok txt →
      suggestCaption (some k) gen images = txt) := by
  refine ⟨rfl, by simp [suggestCaption, keyTruthy], ?_, ?_⟩ <;>
    intro hk h <;> simp [suggestCaption, keyTruthy, hk, h]

/-- Witness for C7: a throwing model call yields the catch fallback. -/
theorem suggestCaption_never_raises_witness :
    suggestCaption (some "key") (fun _ => GenOutcome.error "quota")
      ["data:image/png;base64,AAA"] = genFailMsg :=
  (suggestCaption_never_raises (fun _ => GenOutcome.error "quota")
    ["data:image/png;base64,AAA"] "key" "quota" "t").2.2.1 (by decide) rfl
